import Mathlib

/-!
Shallow embedding of the mortar HGP model decoder.

Source material:
* `src/hgp.cpp` — bulk strategy: the whole file is loaded into one buffer and
  walked by pointer arithmetic (`HGPModel::processMesh`, `HGPModel::HGPModel`).
* `src/unnamed/part_000` — streaming strategy: the same decode performed by
  `seek`/`read` calls on a `Stream` (`Mortar::LSW::processMesh`).

The file body is modelled as a byte-addressable memory `Mem := Nat → Nat`
(each address holding one byte); multi-byte fields are read little-endian,
exactly as the C code reinterprets the little-endian buffer through packed
structs.  The unbounded `do/while` chain loops of the source are embedded with
an explicit fuel argument; every theorem about a chain supplies enough fuel
for the chain it talks about.  4x4 float matrices are out of scope per the
spec ("matrix multiply is assumed available"), so the transform type is an
arbitrary type `M` with a multiplication.
-/

namespace Mortar

/-- Byte-addressable memory: the loaded file buffer (bulk strategy) or the
underlying file (streaming strategy).  Values are reduced mod 256 on read. -/
abbrev Mem : Type := Nat → Nat

/-- Read one byte. -/
def readU8 (mem : Mem) (a : Nat) : Nat := mem a % 256

/-- Read a little-endian 16-bit word, as the C code does by reinterpreting two
bytes of the buffer as a `uint16_t`. -/
def readU16 (mem : Mem) (a : Nat) : Nat := readU8 mem a + 256 * readU8 mem (a + 1)

/-- Read a little-endian 32-bit word (`uint32_t`). -/
def readU32 (mem : Mem) (a : Nat) : Nat := readU16 mem a + 65536 * readU16 mem (a + 2)

/-- Conversion of a 32-bit pattern to a signed `int` (two's complement), as in
the C cast from `uint32_t` arithmetic to `int`. -/
def toInt32 (n : Nat) : Int :=
  if n % 4294967296 < 2147483648 then (n % 4294967296 : Nat) else (n % 4294967296 : Nat) - 4294967296

/-- Conversion of a 16-bit pattern to `int16_t` (two's complement). -/
def toInt16 (n : Nat) : Int :=
  if n % 65536 < 32768 then (n % 65536 : Nat) else (n % 65536 : Nat) - 65536

/-- Conversion of an 8-bit pattern to `int8_t` (two's complement). -/
def toInt8 (n : Nat) : Int :=
  if n % 256 < 128 then (n % 256 : Nat) else (n % 256 : Nat) - 256

/-- The fields of `struct HGPMesh` that the decoder reads (byte offsets within
the record: `next_offset` at +0, `material_idx` at +8, `vertex_type` at +12,
`vertex_buffer_idx` at +28 — named `vertex_block_idx` in the streaming source —
and `chunk_offset` at +48). -/
structure HGPMeshRec where
  next_offset : Nat
  material_idx : Nat
  vertex_type : Nat
  vertex_buffer_idx : Nat
  chunk_offset : Nat
deriving DecidableEq

/-- The fields of `struct HGPChunk` that the decoder reads (`next_offset` at
+0, `primitive_type` at +4, `num_elements` (`uint16_t`) at +8,
`elements_offset` at +12). -/
structure HGPChunkRec where
  next_offset : Nat
  primitive_type : Nat
  num_elements : Nat
  elements_offset : Nat
deriving DecidableEq

/-- Bulk strategy: `(struct HGPMesh *)(body + off)` field reads. -/
def readMeshBulk (mem : Mem) (body off : Nat) : HGPMeshRec where
  next_offset := readU32 mem (body + off)
  material_idx := readU32 mem (body + off + 8)
  vertex_type := readU32 mem (body + off + 12)
  vertex_buffer_idx := readU32 mem (body + off + 28)
  chunk_offset := readU32 mem (body + off + 48)

/-- Bulk strategy: `(struct HGPChunk *)(body + off)` field reads. -/
def readChunkBulk (mem : Mem) (body off : Nat) : HGPChunkRec where
  next_offset := readU32 mem (body + off)
  primitive_type := readU32 mem (body + off + 4)
  num_elements := readU16 mem (body + off + 8)
  elements_offset := readU32 mem (body + off + 12)

/-- One output vertex buffer (`Model::VertexBuffer`): raw bytes plus the
per-mesh resolved stride, which `processMesh` assigns. -/
structure VertexBuffer where
  size : Nat
  stride : Nat
  data : List Nat
deriving DecidableEq

instance : Inhabited VertexBuffer := ⟨{ size := 0, stride := 0, data := [] }⟩

/-- One output draw chunk (`Model::Chunk`). `element_buffer` owns the copied
16-bit indices; `transformation` is the transform passed into the walk. -/
structure ChunkOut (M : Type) where
  vertex_buffer_idx : Int
  material_idx : Nat
  primitive_type : Nat
  num_elements : Nat
  element_buffer : List Nat
  transformation : M
deriving DecidableEq

instance {M : Type} [Inhabited M] : Inhabited (ChunkOut M) :=
  ⟨{ vertex_buffer_idx := 0, material_idx := 0, primitive_type := 0, num_elements := 0,
     element_buffer := [], transformation := default }⟩

/-- The per-mesh `switch (vertex_type)` stride lookup shared by both sources:
89 yields 36, 93 yields 56, anything else falls through with stride 0. -/
def strideOf (vertex_type : Nat) : Nat :=
  if vertex_type = 89 then 36 else if vertex_type = 93 then 56 else 0

/-- The `default:` arm of the same switch prints `Unknown vertex type %d` to
stderr.  The stderr trace is modelled as the list of unknown type values. -/
def strideDiag (vertex_type : Nat) : List Nat :=
  if vertex_type = 89 then [] else if vertex_type = 93 then [] else [vertex_type]

/-- `vertexBuffers[idx].stride = stride`.  The C++ indexing is unchecked; an
out-of-range index (including the `-1` produced by `vertex_buffer_idx = 0`)
is undefined behaviour in the source and is modelled as leaving the vector
unchanged. -/
def setStride (vbs : List VertexBuffer) (idx : Int) (stride : Nat) : List VertexBuffer :=
  if 0 ≤ idx ∧ idx.toNat < vbs.length then
    vbs.set idx.toNat { vbs.getD idx.toNat default with stride := stride }
  else vbs

/-- `int vertex_buffer_idx = mesh->vertex_buffer_idx - 1;` — unsigned 32-bit
subtraction followed by the conversion to `int`. -/
def vbIndexOf (vertex_buffer_idx : Nat) : Int :=
  toInt32 (vertex_buffer_idx + 4294967295)

/-- The element copy of the bulk strategy:
`memcpy(buf, body + elements_offset, num_elements * sizeof(uint16_t))`,
viewed as the list of `num_elements` little-endian 16-bit values. -/
def readElementsBulk (mem : Mem) (body eo n : Nat) : List Nat :=
  (List.range n).map (fun i => readU16 mem (body + eo + 2 * i))

/-- Assembly of one output chunk record from a chunk record, the owning mesh's
resolved buffer index and material, the traversal transform and the copied
element list. -/
def mkChunkOut {M : Type} (vbIdx : Int) (matIdx : Nat) (t : M) (c : HGPChunkRec)
    (es : List Nat) : ChunkOut M where
  vertex_buffer_idx := vbIdx
  material_idx := matIdx
  primitive_type := c.primitive_type
  num_elements := c.num_elements
  element_buffer := es
  transformation := t

/-- The body of one iteration of the bulk chunk loop: read the chunk record at
`off` and emit the corresponding output chunk. -/
def chunkOnce {M : Type} (mem : Mem) (body : Nat) (vbIdx : Int) (matIdx : Nat) (t : M)
    (off : Nat) : ChunkOut M :=
  let c := readChunkBulk mem body off
  mkChunkOut vbIdx matIdx t c (readElementsBulk mem body c.elements_offset c.num_elements)

/-- The bulk chunk `do/while` loop (hgp.cpp lines 217–231): emit the chunk at
`off`, then follow `next_offset` while it is non-zero.  `cfuel` bounds the
number of continuations taken. -/
def chunkLoopBulk {M : Type} (mem : Mem) (body : Nat) (vbIdx : Int) (matIdx : Nat)
    (t : M) : Nat → Nat → List (ChunkOut M)
  | 0, off => [chunkOnce mem body vbIdx matIdx t off]
  | cf + 1, off =>
    let c := readChunkBulk mem body off
    if c.next_offset = 0 then [chunkOnce mem body vbIdx matIdx t off]
    else chunkOnce mem body vbIdx matIdx t off ::
      chunkLoopBulk mem body vbIdx matIdx t cf c.next_offset

/-- The per-mesh body of the bulk mesh loop: resolve the stride, assign it to
the addressed vertex buffer, and run the chunk loop rooted at `chunk_offset`.
Returns (emitted chunks, updated vertex buffers, stderr trace). -/
def meshOnceBulk {M : Type} (mem : Mem) (body : Nat) (t : M) (cfuel : Nat)
    (mesh : HGPMeshRec) (vbs : List VertexBuffer) :
    List (ChunkOut M) × List VertexBuffer × List Nat :=
  let idx := vbIndexOf mesh.vertex_buffer_idx
  (chunkLoopBulk mem body idx mesh.material_idx t cfuel mesh.chunk_offset,
   setStride vbs idx (strideOf mesh.vertex_type),
   strideDiag mesh.vertex_type)

/-- The bulk mesh `do/while` loop (hgp.cpp lines 196–232). -/
def meshLoopBulk {M : Type} (mem : Mem) (body : Nat) (t : M) (cfuel : Nat) :
    Nat → HGPMeshRec → List VertexBuffer →
    List (ChunkOut M) × List VertexBuffer × List Nat
  | 0, mesh, vbs => meshOnceBulk mem body t cfuel mesh vbs
  | mf + 1, mesh, vbs =>
    let r1 := meshOnceBulk mem body t cfuel mesh vbs
    if mesh.next_offset = 0 then r1
    else
      let r2 := meshLoopBulk mem body t cfuel mf (readMeshBulk mem body mesh.next_offset) r1.2.1
      (r1.1 ++ r2.1, r2.2.1, r1.2.2 ++ r2.2.2)

/-- `HGPModel::processMesh` (hgp.cpp lines 185–233), bulk strategy.  A zero
`mesh_header_offset`, or a zero `mesh_offset` in the resolved mesh header
(field at byte offset 12), returns immediately; otherwise the mesh chain at
`mesh_offset` is walked.  Returns (chunks appended to the model, updated
vertex buffers, stderr trace). -/
def processMeshBulk {M : Type} (mem : Mem) (body mesh_header_offset : Nat) (t : M)
    (vbs : List VertexBuffer) (mfuel cfuel : Nat) :
    List (ChunkOut M) × List VertexBuffer × List Nat :=
  if mesh_header_offset = 0 then ([], vbs, [])
  else
    let mesh_offset := readU32 mem (body + mesh_header_offset + 12)
    if mesh_offset = 0 then ([], vbs, [])
    else meshLoopBulk mem body t cfuel mfuel (readMeshBulk mem body mesh_offset) vbs

/-! ### Streaming strategy (src/unnamed/part_000) -/

/-- The streaming reader: the underlying bytes plus a cursor, as in the
`Stream` class used by `Mortar::LSW::processMesh`. -/
structure SStream where
  mem : Mem
  pos : Nat

/-- `stream.seek(a, SEEK_SET)`. -/
def sSeekSet (st : SStream) (a : Nat) : SStream := { st with pos := a }

/-- `stream.seek(d, SEEK_CUR)` for a non-negative skip. -/
def sSeekCur (st : SStream) (d : Nat) : SStream := { st with pos := st.pos + d }

/-- `stream.readUint32()`: read 4 bytes at the cursor, advance the cursor. -/
def sRead32 (st : SStream) : Nat × SStream :=
  (readU32 st.mem st.pos, { st with pos := st.pos + 4 })

/-- `stream.readUint16()`. -/
def sRead16 (st : SStream) : Nat × SStream :=
  (readU16 st.mem st.pos, { st with pos := st.pos + 2 })

/-- `readMeshInfo` (part_000 lines 21–41): seek to the mesh record and read its
fields sequentially, skipping the unused ones with `SEEK_CUR` seeks. -/
def readMeshInfo (st : SStream) (body off : Nat) : HGPMeshRec × SStream :=
  let st0 := sSeekSet st (body + off)
  let r1 := sRead32 st0
  let st1 := sSeekCur r1.2 4
  let r2 := sRead32 st1
  let r3 := sRead32 r2.2
  let st2 := sSeekCur r3.2 12
  let r4 := sRead32 st2
  let st3 := sSeekCur r4.2 16
  let r5 := sRead32 st3
  ({ next_offset := r1.1, material_idx := r2.1, vertex_type := r3.1,
     vertex_buffer_idx := r4.1, chunk_offset := r5.1 }, r5.2)

/-- `readChunkInfo` (part_000 lines 43–57). -/
def readChunkInfo (st : SStream) (body off : Nat) : HGPChunkRec × SStream :=
  let st0 := sSeekSet st (body + off)
  let r1 := sRead32 st0
  let r2 := sRead32 r1.2
  let r3 := sRead16 r2.2
  let st1 := sSeekCur r3.2 2
  let r4 := sRead32 st1
  ({ next_offset := r1.1, primitive_type := r2.1, num_elements := r3.1,
     elements_offset := r4.1 }, r4.2)

/-- The element copy of the streaming strategy: after seeking to the element
array, `num_elements` sequential `readUint16()` calls. -/
def readElemsStream : SStream → Nat → List Nat × SStream
  | st, 0 => ([], st)
  | st, n + 1 =>
    let r := sRead16 st
    let rest := readElemsStream r.2 n
    (r.1 :: rest.1, rest.2)

/-- The streaming chunk `do/while` loop (part_000 lines 98–122), operating on
the already-read chunk record `c` as the source does. -/
def chunkLoopStream {M : Type} (body : Nat) (vbIdx : Int) (matIdx : Nat) (t : M) :
    Nat → HGPChunkRec → SStream → List (ChunkOut M) × SStream
  | 0, c, st =>
    let st1 := sSeekSet st (body + c.elements_offset)
    let r := readElemsStream st1 c.num_elements
    ([mkChunkOut vbIdx matIdx t c r.1], r.2)
  | cf + 1, c, st =>
    let st1 := sSeekSet st (body + c.elements_offset)
    let r := readElemsStream st1 c.num_elements
    let out := mkChunkOut vbIdx matIdx t c r.1
    if c.next_offset = 0 then ([out], r.2)
    else
      let rc := readChunkInfo r.2 body c.next_offset
      let rest := chunkLoopStream body vbIdx matIdx t cf rc.1 rc.2
      (out :: rest.1, rest.2)

/-- The per-mesh body of the streaming mesh loop (part_000 lines 77–122). -/
def meshOnceStream {M : Type} (body : Nat) (t : M) (cfuel : Nat) (mesh : HGPMeshRec)
    (vbs : List VertexBuffer) (st : SStream) :
    (List (ChunkOut M) × List VertexBuffer × List Nat) × SStream :=
  let idx := vbIndexOf mesh.vertex_buffer_idx
  let vbs1 := setStride vbs idx (strideOf mesh.vertex_type)
  let rc := readChunkInfo st body mesh.chunk_offset
  let r := chunkLoopStream body idx mesh.material_idx t cfuel rc.1 rc.2
  ((r.1, vbs1, strideDiag mesh.vertex_type), r.2)

/-- The streaming mesh `do/while` loop (part_000 lines 76–129). -/
def meshLoopStream {M : Type} (body : Nat) (t : M) (cfuel : Nat) :
    Nat → HGPMeshRec → List VertexBuffer → SStream →
    (List (ChunkOut M) × List VertexBuffer × List Nat) × SStream
  | 0, mesh, vbs, st => meshOnceStream body t cfuel mesh vbs st
  | mf + 1, mesh, vbs, st =>
    let r1 := meshOnceStream body t cfuel mesh vbs st
    if mesh.next_offset = 0 then r1
    else
      let rm := readMeshInfo r1.2 body mesh.next_offset
      let r2 := meshLoopStream body t cfuel mf rm.1 r1.1.2.1 rm.2
      ((r1.1.1 ++ r2.1.1, r2.1.2.1, r1.1.2.2 ++ r2.1.2.2), r2.2)

/-- `Mortar::LSW::processMesh` (part_000 lines 59–130), streaming strategy:
seek to the mesh header, skip 12 bytes, read `mesh_offset`; the zero guards
and the mesh-chain walk mirror the bulk strategy but go through the stream. -/
def processMeshStream {M : Type} (body mesh_header_offset : Nat) (t : M)
    (vbs : List VertexBuffer) (mfuel cfuel : Nat) (st : SStream) :
    (List (ChunkOut M) × List VertexBuffer × List Nat) × SStream :=
  if mesh_header_offset = 0 then (([], vbs, []), st)
  else
    let st1 := sSeekCur (sSeekSet st (body + mesh_header_offset)) 12
    let r := sRead32 st1
    if r.1 = 0 then (([], vbs, []), r.2)
    else
      let rm := readMeshInfo r.2 body r.1
      meshLoopStream body t cfuel mfuel rm.1 vbs rm.2

/-! ### Transform composition (hgp.cpp lines 295–302) -/

/-- One iteration of the transform-composition loop:
`modelTransforms[i] = transform_matrices[i];` and, when
`tree_nodes[i].parent_idx != -1`,
`modelTransforms[i] = modelTransforms[i] * modelTransforms[parent_idx]`.
`ws` is the already-filled prefix of `modelTransforms`. -/
def ctStep {M : Type} [Mul M] [Inhabited M] (locals : List M) (parents : List Int)
    (ws : List M) (i : Nat) : List M :=
  let w := locals.getD i default
  let p := parents.getD i (-1)
  ws ++ [if p = -1 then w else w * ws.getD p.toNat default]

/-- The ascending-index pass over the mesh tree that builds the world
transforms. -/
def composeTransforms {M : Type} [Mul M] [Inhabited M] (locals : List M)
    (parents : List Int) : List M :=
  (List.range locals.length).foldl (ctStep locals parents) []

/-! ### Material texture-index normalization (hgp.cpp lines 282–285) -/

/-- The C expression `t & mask` where `t` is the `int16_t` texture index
promoted to a 32-bit two's-complement `int` and `mask` is a non-negative
literal: bitwise AND on the 32-bit representation. -/
def int16And (t : Int) (mask : Nat) : Nat :=
  (t % 4294967296).toNat &&& mask

/-- `if (material->texture_idx != -1 && material->texture_idx & 0x8000)
materials[i].texture_idx = material->texture_idx & 0x7FFF; else
materials[i].texture_idx = material->texture_idx;` -/
def normalizeTextureIdx (t : Int) : Int :=
  if t ≠ -1 ∧ int16And t 32768 ≠ 0 then (int16And t 32767 : Nat) else t

/-! ### Layer walking (hgp.cpp lines 317–337) and the constructor -/

/-- One `this->processMesh(...)` call made by the constructor, threading the
model's chunk list, the vertex-buffer vector and the stderr trace. -/
def stepMesh {M : Type} (mem : Mem) (body : Nat) (mho : Nat) (t : M) (mfuel cfuel : Nat)
    (st : List (ChunkOut M) × List VertexBuffer × List Nat) :
    List (ChunkOut M) × List VertexBuffer × List Nat :=
  let r := processMeshBulk mem body mho t st.2.1 mfuel cfuel
  (st.1 ++ r.1, r.2.1, st.2.2 ++ r.2.2)

/-- The body of the slot loop `for (int j = 0; j < 4; j++)`: skip a zero slot
offset; an even slot is an array of `num_meshes` mesh-header offsets, each
processed with that mesh's world transform; an odd slot is processed once
with `static_transform_matrices[0] * modelTransforms[0]`.  A layer header is
20 bytes (`name_offset` then 4 slot offsets). -/
def slotBody {M : Type} [Mul M] [Inhabited M] (mem : Mem) (body : Nat) (worldT : List M)
    (static0 : M) (num_meshes mfuel cfuel lho i : Nat)
    (st : List (ChunkOut M) × List VertexBuffer × List Nat) (j : Nat) :
    List (ChunkOut M) × List VertexBuffer × List Nat :=
  let slot := readU32 mem (body + lho + 20 * i + 4 + 4 * j)
  if slot = 0 then st
  else if j % 2 = 0 then
    (List.range num_meshes).foldl
      (fun s k => stepMesh mem body (readU32 mem (body + slot + 4 * k))
        (worldT.getD k default) mfuel cfuel s) st
  else stepMesh mem body slot (static0 * worldT.getD 0 default) mfuel cfuel st

/-- The body of the layer loop `for (int i = 0; i < num_layers; i++)`:
`if (i != 0 && i != 2) continue;` then the slot loop. -/
def layerBody {M : Type} [Mul M] [Inhabited M] (mem : Mem) (body : Nat) (worldT : List M)
    (static0 : M) (num_meshes mfuel cfuel lho : Nat)
    (st : List (ChunkOut M) × List VertexBuffer × List Nat) (i : Nat) :
    List (ChunkOut M) × List VertexBuffer × List Nat :=
  if i ≠ 0 ∧ i ≠ 2 then st
  else (List.range 4).foldl (slotBody mem body worldT static0 num_meshes mfuel cfuel lho i) st

/-- The layer walk of the constructor: the nested loops of hgp.cpp lines
317–337 over `num_layers` layers and 4 slots each. -/
def runLayers {M : Type} [Mul M] [Inhabited M] (mem : Mem) (body lho num_layers num_meshes : Nat)
    (worldT : List M) (static0 : M) (mfuel cfuel : Nat)
    (st : List (ChunkOut M) × List VertexBuffer × List Nat) :
    List (ChunkOut M) × List VertexBuffer × List Nat :=
  (List.range num_layers).foldl
    (layerBody mem body worldT static0 num_meshes mfuel cfuel lho) st

/-- One normalized output material (`Model::Material`): the float color
components are kept as their raw 32-bit patterns (float decoding is out of
scope), `alpha` is a `uint32_t`, and `texture_idx` is the normalized index. -/
structure MaterialRec where
  red : Nat
  green : Nat
  blue : Nat
  alpha : Nat
  texture_idx : Int
deriving DecidableEq

/-- The caller-visible decoded model (the `HGPModel` object: its base `Model`
state after the constructor runs).  Textures are kept as the absolute byte
offsets handed to the external DDS decoder (pixel decoding is out of scope). -/
structure HModel (M : Type) where
  textures : List Nat
  materials : List MaterialRec
  vertexBuffers : List VertexBuffer
  chunks : List (ChunkOut M)
deriving DecidableEq

instance {M : Type} : Inhabited (HModel M) :=
  ⟨{ textures := [], materials := [], vertexBuffers := [], chunks := [] }⟩

/-- `HGPModel::HGPModel` (hgp.cpp lines 235–343).

`readMatrix` abstracts the reinterpretation of 64 bytes of the buffer as a
4x4 float `Matrix` (float decoding is out of scope per the spec).
`seekFails` abstracts the outcome of the initial `fseek(hgp, 0, SEEK_END)`:
when it reports failure the constructor prints `strerror(errno)` and returns
early, so the caller receives the default-initialized (empty) model — the
return type has no error channel at all.  The `fopen` result and the `fread`
byte count are not checked by the source.  The body base is the fixed 0x30
preamble.  Field byte offsets follow the packed structs of hgp.cpp:
header (`texture_header_offset` +8, `material_header_offset` +12,
`vertex_header_offset` +20, `model_header_offset` +24); model header
(`mesh_tree_offset` +20, `transformations_offset` +24,
`static_transformations_offset` +28, `layer_header_offset` +36,
`num_meshes` +124, `num_layers` +126); texture header
(`texture_block_offset` +0, `num_textures` +8, block headers of 20 bytes
from +28); material header (`num_materials` +0, offsets from +4); material
(`red` +84, `green` +88, `blue` +92, `alpha` +116, `texture_idx` +120);
mesh-tree node of 96 bytes (`parent_idx` at +80); transform matrices of 64
bytes; vertex header (`num_vertex_blocks` +0, blocks of 12 bytes from +16,
each `size` +0 and `offset` +8, data at `vertex_header_offset + offset`). -/
def hgpConstruct {M : Type} [Mul M] [Inhabited M] (readMatrix : Mem → Nat → M)
    (seekFails : Bool) (mem : Mem) (mfuel cfuel : Nat) : HModel M :=
  if seekFails then default
  else
    let body := 48
    let texOff := readU32 mem 8
    let matOff := readU32 mem 12
    let vtxOff := readU32 mem 20
    let mdlOff := readU32 mem 24
    let texBlockOff := readU32 mem (body + texOff)
    let numTex := readU32 mem (body + texOff + 8)
    let textures := (List.range numTex).map (fun i =>
      body + texOff + texBlockOff + 12 + readU32 mem (body + texOff + 28 + 20 * i))
    let numMat := readU32 mem (body + matOff)
    let materials := (List.range numMat).map (fun i =>
      let moff := readU32 mem (body + matOff + 4 + 4 * i)
      { red := readU32 mem (body + moff + 84), green := readU32 mem (body + moff + 88),
        blue := readU32 mem (body + moff + 92), alpha := readU32 mem (body + moff + 116),
        texture_idx := normalizeTextureIdx (toInt16 (readU16 mem (body + moff + 120)))
        : MaterialRec })
    let treeOff := readU32 mem (body + mdlOff + 20)
    let trOff := readU32 mem (body + mdlOff + 24)
    let stOff := readU32 mem (body + mdlOff + 28)
    let lhOff := readU32 mem (body + mdlOff + 36)
    let numMeshes := readU8 mem (body + mdlOff + 124)
    let numLayers := readU8 mem (body + mdlOff + 126)
    let locals := (List.range numMeshes).map (fun i => readMatrix mem (body + trOff + 64 * i))
    let parents := (List.range numMeshes).map (fun i =>
      toInt8 (readU8 mem (body + treeOff + 96 * i + 80)))
    let worldT := composeTransforms locals parents
    let numVB := readU32 mem (body + vtxOff)
    let vbs0 := (List.range numVB).map (fun i =>
      let sz := readU32 mem (body + vtxOff + 16 + 12 * i)
      let off := readU32 mem (body + vtxOff + 16 + 12 * i + 8)
      { size := sz, stride := 0,
        data := (List.range sz).map (fun b => readU8 mem (body + vtxOff + off + b))
        : VertexBuffer })
    let r := runLayers mem body lhOff numLayers numMeshes worldT
      (readMatrix mem (body + stOff)) mfuel cfuel ([], vbs0, [])
    { textures := textures, materials := materials, vertexBuffers := r.2.1, chunks := r.1 }

/-! ### Well-formed chunk chains -/

/-- A chunk chain of the source format: `ChunkChain mem body o os` says that
the chunk records reachable from offset `o` by following `next_offset` form
exactly the list `os` of offsets (head `o`), the last record having
`next_offset = 0` and every intermediate link being non-zero. -/
inductive ChunkChain (mem : Mem) (body : Nat) : Nat → List Nat → Prop
  | last (o : Nat) : (readChunkBulk mem body o).next_offset = 0 → ChunkChain mem body o [o]
  | step (o o2 : Nat) (os : List Nat) :
      (readChunkBulk mem body o).next_offset = o2 → o2 ≠ 0 →
      ChunkChain mem body o2 os → ChunkChain mem body o (o :: os)

/-! ### Equivalence of the two strategies -/

theorem readChunkInfo_eq (mem : Mem) (p body off : Nat) :
    readChunkInfo (SStream.mk mem p) body off =
      (readChunkBulk mem body off, SStream.mk mem (body + off + 16)) := by
  simp only [readChunkInfo, sSeekSet, sSeekCur, sRead32, sRead16, readChunkBulk]

theorem readMeshInfo_eq (mem : Mem) (p body off : Nat) :
    readMeshInfo (SStream.mk mem p) body off =
      (readMeshBulk mem body off, SStream.mk mem (body + off + 52)) := by
  simp only [readMeshInfo, sSeekSet, sSeekCur, sRead32, readMeshBulk]

theorem readElemsStream_eq (mem : Mem) :
    ∀ (n p : Nat), readElemsStream (SStream.mk mem p) n =
      ((List.range n).map (fun i => readU16 mem (p + 2 * i)), SStream.mk mem (p + 2 * n)) := by
  intro n
  induction n with
  | zero => intro p; simp [readElemsStream]
  | succ n ih =>
    intro p
    simp only [readElemsStream, sRead16, ih (p + 2), List.range_succ_eq_map, List.map_cons,
      List.map_map, Prod.mk.injEq, List.cons.injEq, SStream.mk.injEq]
    refine ⟨⟨by simp, ?_⟩, trivial, by omega⟩
    apply List.map_congr_left
    intro i _
    simp only [Function.comp]
    congr 1
    omega

theorem chunkLoopStream_spec {M : Type} (mem : Mem) (body : Nat) (vbIdx : Int)
    (matIdx : Nat) (t : M) :
    ∀ (cf off p : Nat), ∃ q,
      chunkLoopStream body vbIdx matIdx t cf (readChunkBulk mem body off) (SStream.mk mem p) =
        (chunkLoopBulk mem body vbIdx matIdx t cf off, SStream.mk mem q) := by
  intro cf
  induction cf with
  | zero =>
    intro off p
    refine ⟨body + (readChunkBulk mem body off).elements_offset +
      2 * (readChunkBulk mem body off).num_elements, ?_⟩
    simp [chunkLoopStream, chunkLoopBulk, sSeekSet, readElemsStream_eq, chunkOnce,
      readElementsBulk]
  | succ cf ih =>
    intro off p
    by_cases h : (readChunkBulk mem body off).next_offset = 0
    · refine ⟨body + (readChunkBulk mem body off).elements_offset +
        2 * (readChunkBulk mem body off).num_elements, ?_⟩
      simp [chunkLoopStream, chunkLoopBulk, h, sSeekSet, readElemsStream_eq, chunkOnce,
        readElementsBulk]
    · obtain ⟨q, hq⟩ := ih (readChunkBulk mem body off).next_offset
        (body + (readChunkBulk mem body off).next_offset + 16)
      refine ⟨q, ?_⟩
      simp [chunkLoopStream, chunkLoopBulk, h, sSeekSet, readElemsStream_eq,
        readChunkInfo_eq, hq, chunkOnce, readElementsBulk]

theorem meshOnceStream_spec {M : Type} (mem : Mem) (body : Nat) (t : M) (cfuel : Nat)
    (mesh : HGPMeshRec) (vbs : List VertexBuffer) (p : Nat) :
    ∃ q, meshOnceStream body t cfuel mesh vbs (SStream.mk mem p) =
      (meshOnceBulk mem body t cfuel mesh vbs, SStream.mk mem q) := by
  obtain ⟨q, hq⟩ := chunkLoopStream_spec mem body (vbIndexOf mesh.vertex_buffer_idx)
    mesh.material_idx t cfuel mesh.chunk_offset (body + mesh.chunk_offset + 16)
  exact ⟨q, by simp [meshOnceStream, meshOnceBulk, readChunkInfo_eq, hq]⟩

theorem meshLoopStream_spec {M : Type} (mem : Mem) (body : Nat) (t : M) (cfuel : Nat) :
    ∀ (mf : Nat) (mesh : HGPMeshRec) (vbs : List VertexBuffer) (p : Nat),
      ∃ q, meshLoopStream body t cfuel mf mesh vbs (SStream.mk mem p) =
        (meshLoopBulk mem body t cfuel mf mesh vbs, SStream.mk mem q) := by
  intro mf
  induction mf with
  | zero =>
    intro mesh vbs p
    obtain ⟨q, hq⟩ := meshOnceStream_spec mem body t cfuel mesh vbs p
    exact ⟨q, by simpa [meshLoopStream, meshLoopBulk] using hq⟩
  | succ mf ih =>
    intro mesh vbs p
    obtain ⟨q1, hq1⟩ := meshOnceStream_spec mem body t cfuel mesh vbs p
    by_cases h : mesh.next_offset = 0
    · exact ⟨q1, by simp [meshLoopStream, meshLoopBulk, h, hq1]⟩
    · obtain ⟨q2, hq2⟩ := ih (readMeshBulk mem body mesh.next_offset)
        (meshOnceBulk mem body t cfuel mesh vbs).2.1 (body + mesh.next_offset + 52)
      refine ⟨q2, ?_⟩
      simp [meshLoopStream, meshLoopBulk, h, hq1, readMeshInfo_eq, hq2]

theorem processMeshStream_spec {M : Type} (mem : Mem) (body mho : Nat) (t : M)
    (vbs : List VertexBuffer) (mfuel cfuel p : Nat) :
    ∃ q, processMeshStream body mho t vbs mfuel cfuel (SStream.mk mem p) =
      (processMeshBulk mem body mho t vbs mfuel cfuel, SStream.mk mem q) := by
  by_cases h0 : mho = 0
  · exact ⟨p, by simp [processMeshStream, processMeshBulk, h0]⟩
  · by_cases h1 : readU32 mem (body + mho + 12) = 0
    · refine ⟨body + mho + 12 + 4, ?_⟩
      simp [processMeshStream, processMeshBulk, h0, h1, sSeekSet, sSeekCur, sRead32]
    · obtain ⟨q, hq⟩ := meshLoopStream_spec mem body t cfuel mfuel
        (readMeshBulk mem body (readU32 mem (body + mho + 12))) vbs
        (body + readU32 mem (body + mho + 12) + 52)
      refine ⟨q, ?_⟩
      simp [processMeshStream, processMeshBulk, h0, h1, sSeekSet, sSeekCur, sRead32,
        readMeshInfo_eq, hq]

/-! ### Generic list helpers -/

theorem getD_append_lt {α : Type} (l l2 : List α) (d : α) (n : Nat) (h : n < l.length) :
    (l ++ l2).getD n d = l.getD n d := by
  simp [List.getD_eq_getElem?_getD, List.getElem?_append_left h]

theorem getD_concat_length {α : Type} (l : List α) (a d : α) :
    (l ++ [a]).getD l.length d = a := by
  simp [List.getD_eq_getElem?_getD, List.getElem?_concat_length]

theorem getD_map_lt {α β : Type} (f : α → β) (l : List α) (k : Nat) (d : β) (d2 : α)
    (h : k < l.length) : (l.map f).getD k d = f (l.getD k d2) := by
  simp [List.getD_eq_getElem?_getD, List.getElem?_eq_getElem, h, List.getElem?_eq_getElem
    (show k < (l.map f).length by simpa using h)]

/-! ### Facts about the transform composer -/

theorem ctFold_length {M : Type} [Mul M] [Inhabited M] (locals : List M) (parents : List Int) :
    ∀ (k : Nat) (ws : List M),
      ((List.range k).foldl (ctStep locals parents) ws).length = ws.length + k := by
  intro k
  induction k with
  | zero => simp
  | succ k ih =>
    intro ws
    rw [List.range_succ, List.foldl_append]
    simp only [List.foldl_cons, List.foldl_nil, ctStep]
    rw [List.length_append]
    rw [ih ws]
    simp
    omega

theorem ctFold_stable {M : Type} [Mul M] [Inhabited M] (locals : List M) (parents : List Int) :
    ∀ (k j : Nat), j < k →
      ((List.range k).foldl (ctStep locals parents) []).getD j default =
        ((List.range (j + 1)).foldl (ctStep locals parents) []).getD j default := by
  intro k
  induction k with
  | zero => intro j h; omega
  | succ k ih =>
    intro j hj
    rcases Nat.lt_or_ge j k with h | h
    · rw [List.range_succ, List.foldl_append]
      simp only [List.foldl_cons, List.foldl_nil]
      rw [show ctStep locals parents ((List.range k).foldl (ctStep locals parents) []) k =
        ((List.range k).foldl (ctStep locals parents) []) ++
          [let w := locals.getD k default
           let p := parents.getD k (-1)
           if p = -1 then w
           else w * ((List.range k).foldl (ctStep locals parents) []).getD p.toNat default]
        from rfl]
      rw [getD_append_lt]
      · exact ih j h
      · rw [ctFold_length]
        simpa using h
    · have hjk : j = k := by omega
      subst hjk
      rfl

/-! ### Facts about the bulk chunk loop -/

theorem ChunkChain.length_pos {mem : Mem} {body o : Nat} {os : List Nat}
    (h : ChunkChain mem body o os) : 0 < os.length := by
  cases h <;> simp

theorem chunkLoopBulk_chain {M : Type} (mem : Mem) (body : Nat) (vbIdx : Int) (matIdx : Nat)
    (t : M) {o : Nat} {os : List Nat} (hc : ChunkChain mem body o os) :
    ∀ (cf : Nat), os.length ≤ cf + 1 →
      chunkLoopBulk mem body vbIdx matIdx t cf o = os.map (chunkOnce mem body vbIdx matIdx t) := by
  induction hc with
  | last o h =>
    intro cf _
    cases cf with
    | zero => simp [chunkLoopBulk]
    | succ cf => simp [chunkLoopBulk, h]
  | step o o2 os2 hnext hne hch ih =>
    intro cf hcf
    cases cf with
    | zero =>
      exfalso
      have h1 := hch.length_pos
      have h2 : os2.length + 1 ≤ 1 := by simpa using hcf
      omega
    | succ cf =>
      have hstep : chunkLoopBulk mem body vbIdx matIdx t (cf + 1) o =
          chunkOnce mem body vbIdx matIdx t o ::
            chunkLoopBulk mem body vbIdx matIdx t cf (readChunkBulk mem body o).next_offset := by
        simp [chunkLoopBulk, hnext, hne]
      rw [hstep, hnext, ih cf (by simp at hcf; omega)]
      simp

theorem chunkLoopBulk_cons {M : Type} (mem : Mem) (body : Nat) (vbIdx : Int) (matIdx : Nat)
    (t : M) : ∀ (cf off : Nat), ∃ r,
      chunkLoopBulk mem body vbIdx matIdx t cf off = chunkOnce mem body vbIdx matIdx t off :: r := by
  intro cf off
  cases cf with
  | zero => exact ⟨[], rfl⟩
  | succ cf =>
    by_cases h : (readChunkBulk mem body off).next_offset = 0
    · exact ⟨[], by simp [chunkLoopBulk, h]⟩
    · exact ⟨chunkLoopBulk mem body vbIdx matIdx t cf (readChunkBulk mem body off).next_offset,
        by simp [chunkLoopBulk, h]⟩

theorem meshLoopBulk_cons {M : Type} (mem : Mem) (body : Nat) (t : M) (cfuel : Nat) :
    ∀ (mf : Nat) (mesh : HGPMeshRec) (vbs : List VertexBuffer), ∃ r,
      (meshLoopBulk mem body t cfuel mf mesh vbs).1 =
        chunkOnce mem body (vbIndexOf mesh.vertex_buffer_idx) mesh.material_idx t
          mesh.chunk_offset :: r := by
  intro mf
  induction mf with
  | zero =>
    intro mesh vbs
    obtain ⟨r, hr⟩ := chunkLoopBulk_cons mem body (vbIndexOf mesh.vertex_buffer_idx)
      mesh.material_idx t cfuel mesh.chunk_offset
    exact ⟨r, by simpa [meshLoopBulk, meshOnceBulk] using hr⟩
  | succ mf ih =>
    intro mesh vbs
    obtain ⟨r, hr⟩ := chunkLoopBulk_cons mem body (vbIndexOf mesh.vertex_buffer_idx)
      mesh.material_idx t cfuel mesh.chunk_offset
    by_cases h : mesh.next_offset = 0
    · exact ⟨r, by simpa [meshLoopBulk, meshOnceBulk, h] using hr⟩
    · refine ⟨r ++ (meshLoopBulk mem body t cfuel mf (readMeshBulk mem body mesh.next_offset)
        (meshOnceBulk (M := M) mem body t cfuel mesh vbs).2.1).1, ?_⟩
      simp only [meshLoopBulk, h, if_neg h]
      rw [show (meshOnceBulk (M := M) mem body t cfuel mesh vbs).1 =
        chunkLoopBulk mem body (vbIndexOf mesh.vertex_buffer_idx) mesh.material_idx t cfuel
          mesh.chunk_offset from rfl, hr]
      simp

/-! ### Claim C1 — transform composition -/

/-- C1: for every mesh-tree input (local transforms and parent indices of the
same length, each parent index `-1` or strictly below its own index), the
single ascending-index pass of the decoder produces a world-transform array
of the same length with `world[i] = local[i]` when `parent_idx[i] = -1` and
`world[i] = local[i] * world[parent_idx[i]]` otherwise (local on the left,
the parent's already-computed world transform on the right). -/
theorem claim_C1 {M : Type} [Mul M] [Inhabited M] (locals : List M) (parents : List Int)
    (hlen : parents.length = locals.length)
    (hpar : ∀ i, i < locals.length → parents.getD i (-1) = -1 ∨
      (0 ≤ parents.getD i (-1) ∧ (parents.getD i (-1)).toNat < i)) :
    (composeTransforms locals parents).length = locals.length ∧
    ∀ i, i < locals.length →
      (composeTransforms locals parents).getD i default =
        if parents.getD i (-1) = -1 then locals.getD i default
        else locals.getD i default *
          (composeTransforms locals parents).getD (parents.getD i (-1)).toNat default := by
  constructor
  · rw [composeTransforms, ctFold_length]
    simp
  · intro i hi
    have hlen2 : ((List.range i).foldl (ctStep locals parents) []).length = i := by
      rw [ctFold_length]; simp
    have hx : ∀ x : M,
        (((List.range i).foldl (ctStep locals parents) []) ++ [x]).getD i default = x := by
      intro x
      have h := getD_concat_length ((List.range i).foldl (ctStep locals parents) []) x default
      rwa [hlen2] at h
    have hmain : (composeTransforms locals parents).getD i default =
        (let w := locals.getD i default
         let p := parents.getD i (-1)
         if p = -1 then w
         else w * ((List.range i).foldl (ctStep locals parents) []).getD p.toNat default) := by
      rw [composeTransforms, ctFold_stable locals parents locals.length i hi,
        List.range_succ, List.foldl_append]
      simp only [List.foldl_cons, List.foldl_nil]
      rw [show ctStep locals parents ((List.range i).foldl (ctStep locals parents) []) i =
        ((List.range i).foldl (ctStep locals parents) []) ++
          [let w := locals.getD i default
           let p := parents.getD i (-1)
           if p = -1 then w
           else w * ((List.range i).foldl (ctStep locals parents) []).getD p.toNat default]
        from rfl]
      exact hx _
    rw [hmain]
    by_cases hp : parents.getD i (-1) = -1
    · simp only []
      rw [if_pos hp, if_pos hp]
    · have hplt : (parents.getD i (-1)).toNat < i := by
        rcases hpar i hi with h | ⟨h0, hlt⟩
        · exact absurd h hp
        · exact hlt
      simp only []
      rw [if_neg hp, if_neg hp]
      rw [ctFold_stable locals parents i (parents.getD i (-1)).toNat hplt]
      rw [composeTransforms,
        ctFold_stable locals parents locals.length (parents.getD i (-1)).toNat (by omega)]

/-- Witness for C1: a two-level tree (`parents = [-1, 0]`) with natural-number
transforms; `world[0] = local[0]` and `world[1] = local[1] * world[0]`. -/
theorem claim_C1_witness :
    (composeTransforms (M := Nat) [2, 3] [-1, 0]).length = 2 ∧
    (composeTransforms (M := Nat) [2, 3] [-1, 0]).getD 0 default = 2 ∧
    (composeTransforms (M := Nat) [2, 3] [-1, 0]).getD 1 default =
      3 * (composeTransforms (M := Nat) [2, 3] [-1, 0]).getD 0 default := by
  have h := claim_C1 (M := Nat) [2, 3] [-1, 0] (by decide) (by decide)
  refine ⟨h.1, ?_, ?_⟩
  · have h0 := h.2 0 (by decide)
    simpa using h0
  · have h1 := h.2 1 (by decide)
    simpa using h1

/-! ### Claim C2 — chunk chains -/

/-- C2: a chunk chain of length N (records linked by `next_offset`, the last
having `next_offset = 0`) yields exactly N output chunks; the k-th output
chunk carries the declared `num_elements` of the k-th record, its element
buffer has exactly that many entries, and entry i equals the 16-bit value
stored at `elements_offset + 2*i` of that record. -/
theorem claim_C2 {M : Type} [Inhabited M] (mem : Mem) (body : Nat) (vbIdx : Int)
    (matIdx : Nat) (t : M) (o : Nat) (os : List Nat) (cf : Nat)
    (hc : ChunkChain mem body o os) (hcf : os.length ≤ cf + 1) :
    (chunkLoopBulk mem body vbIdx matIdx t cf o).length = os.length ∧
    ∀ k, k < os.length →
      ((chunkLoopBulk mem body vbIdx matIdx t cf o).getD k default).num_elements =
        (readChunkBulk mem body (os.getD k 0)).num_elements ∧
      ((chunkLoopBulk mem body vbIdx matIdx t cf o).getD k default).element_buffer.length =
        (readChunkBulk mem body (os.getD k 0)).num_elements ∧
      ∀ i, i < (readChunkBulk mem body (os.getD k 0)).num_elements →
        ((chunkLoopBulk mem body vbIdx matIdx t cf o).getD k default).element_buffer.getD i 0 =
          readU16 mem (body + (readChunkBulk mem body (os.getD k 0)).elements_offset + 2 * i) := by
  have hmap := chunkLoopBulk_chain mem body vbIdx matIdx t hc cf hcf
  rw [hmap]
  refine ⟨by simp, ?_⟩
  intro k hk
  rw [getD_map_lt _ _ _ _ 0 hk]
  refine ⟨rfl, by simp [chunkOnce, mkChunkOut, readElementsBulk], ?_⟩
  intro i hi
  show (readElementsBulk mem body (readChunkBulk mem body (os.getD k 0)).elements_offset
    (readChunkBulk mem body (os.getD k 0)).num_elements).getD i 0 = _
  rw [readElementsBulk, getD_map_lt _ _ _ _ 0 (by simpa using hi)]
  congr 1
  have hlt : i < (List.range (readChunkBulk mem body (os.getD k 0)).num_elements).length := by
    simpa using hi
  simp only [List.getD_eq_getElem?_getD] at hlt ⊢
  rw [List.getElem?_eq_getElem hlt]
  simp

/-- A concrete file body holding a two-record chunk chain rooted at offset 200:
the record at 200 links to 232 (one element, value 7, at offset 300), the
record at 232 terminates the chain (two elements, 5 and 11, at offset 90). -/
def memC2 : Mem := fun a =>
  if a = 200 then 232
  else if a = 204 then 4
  else if a = 208 then 1
  else if a = 212 then 44 else if a = 213 then 1
  else if a = 236 then 6
  else if a = 240 then 2
  else if a = 244 then 90
  else if a = 300 then 7
  else if a = 90 then 5 else if a = 92 then 11
  else 0

/-- Witness for C2 at the concrete two-record chain of `memC2`. -/
theorem claim_C2_witness :
    (chunkLoopBulk (M := Nat) memC2 0 0 3 0 1 200).length = 2 ∧
    ((chunkLoopBulk (M := Nat) memC2 0 0 3 0 1 200).getD 1 default).element_buffer.getD 0 0 =
      readU16 memC2 (0 + (readChunkBulk memC2 0 232).elements_offset + 2 * 0) := by
  have h := claim_C2 (M := Nat) memC2 0 0 3 0 200 [200, 232] 1
    (ChunkChain.step 200 232 [232] (by decide) (by decide)
      (ChunkChain.last 232 (by decide)))
    (by decide)
  exact ⟨h.1, ((h.2 1 (by decide)).2.2 0 (by decide))⟩

/-! ### Claim C3 — the two strategies agree -/

/-- C3: on the same underlying bytes and inputs, the bulk-buffer traversal and
the streaming seek/read traversal of a mesh graph produce the same emitted
chunk sequence, the same final vertex-buffer vector (hence the same strides)
and the same stderr trace, for any starting cursor position of the stream. -/
theorem claim_C3 {M : Type} (mem : Mem) (body mho : Nat) (t : M)
    (vbs : List VertexBuffer) (mfuel cfuel p : Nat) :
    (processMeshStream body mho t vbs mfuel cfuel (SStream.mk mem p)).1 =
      processMeshBulk mem body mho t vbs mfuel cfuel := by
  obtain ⟨q, hq⟩ := processMeshStream_spec mem body mho t vbs mfuel cfuel p
  rw [hq]

/-! ### Claims C9 and C10 — walker entry behaviour -/

/-- C9: every mesh reached through a non-zero mesh-header offset and non-zero
mesh offset emits at least one chunk, and the first emitted chunk is the one
read at the first mesh's `chunk_offset` — unconditionally, so a
`chunk_offset` of 0 is dereferenced (the record at body offset 0 is read and
emitted) rather than treated as an empty chain.  Both strategies emit. -/
theorem claim_C9 {M : Type} [Inhabited M] (mem : Mem) (body mho : Nat) (t : M)
    (vbs : List VertexBuffer) (mfuel cfuel p : Nat)
    (h1 : mho ≠ 0) (h2 : readU32 mem (body + mho + 12) ≠ 0) :
    (processMeshBulk mem body mho t vbs mfuel cfuel).1.headD default =
      chunkOnce mem body
        (vbIndexOf (readMeshBulk mem body (readU32 mem (body + mho + 12))).vertex_buffer_idx)
        (readMeshBulk mem body (readU32 mem (body + mho + 12))).material_idx t
        (readMeshBulk mem body (readU32 mem (body + mho + 12))).chunk_offset ∧
    (processMeshBulk mem body mho t vbs mfuel cfuel).1 ≠ [] ∧
    (processMeshStream body mho t vbs mfuel cfuel (SStream.mk mem p)).1.1 ≠ [] := by
  obtain ⟨r, hr⟩ := meshLoopBulk_cons mem body t cfuel mfuel
    (readMeshBulk mem body (readU32 mem (body + mho + 12))) vbs
  have hb : processMeshBulk mem body mho t vbs mfuel cfuel =
      meshLoopBulk mem body t cfuel mfuel
        (readMeshBulk mem body (readU32 mem (body + mho + 12))) vbs := by
    simp [processMeshBulk, h1, h2]
  obtain ⟨q, hq⟩ := processMeshStream_spec mem body mho t vbs mfuel cfuel p
  refine ⟨?_, ?_, ?_⟩
  · rw [hb, hr]; rfl
  · rw [hb, hr]; simp
  · rw [hq]; simp only [hb, hr]; simp

/-- A concrete file body whose single mesh (header at 100, record at 128) has
`chunk_offset = 0`: the bytes at body offset 0 form the chunk record that
gets emitted (terminal, one element, value 3, at offset 20). -/
def memC9 : Mem := fun a =>
  if a = 4 then 9
  else if a = 8 then 1
  else if a = 12 then 20
  else if a = 20 then 3
  else if a = 112 then 128
  else if a = 136 then 2
  else if a = 140 then 93
  else if a = 156 then 1
  else 0

/-- Witness for C9: on `memC9` the mesh's `chunk_offset` is 0 and the walker
still emits exactly the chunk read from body offset 0. -/
theorem claim_C9_witness :
    (readMeshBulk memC9 0 128).chunk_offset = 0 ∧
    (processMeshBulk (M := Nat) memC9 0 100 0 [default] 2 2).1.headD default =
      chunkOnce memC9 0 (vbIndexOf (readMeshBulk memC9 0 128).vertex_buffer_idx)
        (readMeshBulk memC9 0 128).material_idx 0 (readMeshBulk memC9 0 128).chunk_offset ∧
    (processMeshBulk (M := Nat) memC9 0 100 0 [default] 2 2).1 ≠ [] := by
  have h := claim_C9 (M := Nat) memC9 0 100 0 [default] 2 2 0 (by decide) (by decide)
  exact ⟨by decide, by simpa using h.1, h.2.1⟩

/-- C10: a call to the mesh walker with a zero mesh-header offset, or whose
resolved mesh header has a zero mesh offset, returns with no chunk appended,
no stderr output, and the vertex-buffer vector exactly as passed in — under
both strategies. -/
theorem claim_C10 {M : Type} (mem : Mem) (body mho : Nat) (t : M)
    (vbs : List VertexBuffer) (mfuel cfuel p : Nat)
    (h : mho = 0 ∨ readU32 mem (body + mho + 12) = 0) :
    processMeshBulk mem body mho t vbs mfuel cfuel = ([], vbs, []) ∧
    (processMeshStream body mho t vbs mfuel cfuel (SStream.mk mem p)).1 = ([], vbs, []) := by
  obtain ⟨q, hq⟩ := processMeshStream_spec mem body mho t vbs mfuel cfuel p
  rw [hq]
  rcases h with h | h
  · simp [processMeshBulk, h]
  · by_cases h0 : mho = 0
    · simp [processMeshBulk, h0]
    · simp [processMeshBulk, h0, h]

/-- Witness for C10: the all-zero memory with a zero header offset leaves the
vertex-buffer vector untouched and emits nothing. -/
theorem claim_C10_witness :
    processMeshBulk (M := Nat) (fun _ => 0) 0 0 0 [default] 1 1 = ([], [default], []) ∧
    (processMeshStream (M := Nat) 0 0 0 [default] 1 1 (SStream.mk (fun _ => 0) 5)).1 =
      ([], [default], []) :=
  claim_C10 (M := Nat) (fun _ => 0) 0 0 0 [default] 1 1 5 (Or.inl rfl)

/-! ### Claim C5 — material texture-index normalization -/

/-- C5: for a stored 16-bit texture-index pattern `u`, the normalized index is
`-1` when the stored signed value is `-1` (pattern 0xFFFF); the low 15 bits
(`u % 32768`) when the stored value is not `-1` and bit 15 (0x8000) is set;
and the stored value unchanged when bit 15 is clear. -/
theorem claim_C5 (u : Nat) (hu : u < 65536) :
    (u = 65535 → normalizeTextureIdx (toInt16 u) = -1) ∧
    (u ≠ 65535 → u.testBit 15 = true →
      normalizeTextureIdx (toInt16 u) = ((u % 32768 : Nat) : Int)) ∧
    (u.testBit 15 = false → normalizeTextureIdx (toInt16 u) = (u : Int)) := by
  refine ⟨?_, ?_, ?_⟩
  · rintro rfl
    decide
  · intro hne hbit
    rw [Nat.testBit_to_div_mod] at hbit
    have hbit2 : u / 2 ^ 15 % 2 = 1 := of_decide_eq_true hbit
    have hge : 32768 ≤ u := by omega
    have ht : toInt16 u = (u : Int) - 65536 := by
      rw [toInt16, Nat.mod_eq_of_lt hu, if_neg (by omega)]
    have htne : toInt16 u ≠ -1 := by
      rw [ht]
      intro hcon
      have hcast : (u : Int) = 65535 := by omega
      have : u = 65535 := by exact_mod_cast hcast
      exact hne this
    have hmod : ((toInt16 u) % 4294967296).toNat = u + 4294901760 := by
      rw [ht]
      have he : ((u : Int) - 65536) % 4294967296 = (u : Int) + 4294901760 := by
        have h1 : ((u : Int) - 65536) % 4294967296 =
            ((u : Int) - 65536 + 4294967296) % 4294967296 := Int.add_emod_self.symm
        rw [h1, show (u : Int) - 65536 + 4294967296 = (u : Int) + 4294901760 by ring]
        exact Int.emod_eq_of_lt (by positivity) (by omega)
      rw [he]
      omega
    have hA : int16And (toInt16 u) 32768 = 32768 := by
      rw [int16And, hmod, show (32768 : Nat) = 2 ^ 15 from rfl, Nat.and_two_pow]
      have hb : Nat.testBit (u + 4294901760) 15 = true := by
        rw [Nat.testBit_to_div_mod]
        apply decide_eq_true
        omega
      rw [hb]
      decide
    have hB : int16And (toInt16 u) 32767 = u % 32768 := by
      rw [int16And, hmod, show (32767 : Nat) = 2 ^ 15 - 1 from rfl,
        Nat.and_pow_two_sub_one_eq_mod]
      omega
    rw [normalizeTextureIdx, if_pos ⟨htne, by rw [hA]; decide⟩, hB]
  · intro hbit
    rw [Nat.testBit_to_div_mod] at hbit
    have hbit2 : ¬(u / 2 ^ 15 % 2 = 1) := of_decide_eq_false hbit
    have hlt : u < 32768 := by omega
    have ht : toInt16 u = (u : Int) := by
      rw [toInt16, Nat.mod_eq_of_lt hu, if_pos (by omega)]
    have hmod : ((toInt16 u) % 4294967296).toNat = u := by
      rw [ht, Int.emod_eq_of_lt (by positivity) (by omega)]
      omega
    have hA : int16And (toInt16 u) 32768 = 0 := by
      rw [int16And, hmod, show (32768 : Nat) = 2 ^ 15 from rfl, Nat.and_two_pow]
      have hb : Nat.testBit u 15 = false := by
        rw [Nat.testBit_to_div_mod]
        apply decide_eq_false
        omega
      rw [hb]
      decide
    rw [normalizeTextureIdx, if_neg (by simp [hA])]
    exact ht

/-- Witness for C5 at the three stored patterns named by the claim:
0xFFFF maps to -1, 0x8005 maps to 5, 0x0005 maps to 5. -/
theorem claim_C5_witness :
    normalizeTextureIdx (toInt16 65535) = -1 ∧
    normalizeTextureIdx (toInt16 32773) = 5 ∧
    normalizeTextureIdx (toInt16 5) = 5 := by
  have h1 := claim_C5 65535 (by decide)
  have h2 := claim_C5 32773 (by decide)
  have h3 := claim_C5 5 (by decide)
  refine ⟨h1.1 rfl, ?_, ?_⟩
  · have h := h2.2.1 (by decide) (by decide)
    simpa using h
  · have h := h3.2.2 (by decide)
    simpa using h

/-! ### Claim C7 — layer walking -/

theorem slotFold_eq {M : Type} [Mul M] [Inhabited M] (mem : Mem) (body : Nat)
    (worldT : List M) (static0 : M) (num_meshes mfuel cfuel lho i : Nat)
    (st : List (ChunkOut M) × List VertexBuffer × List Nat) :
    (List.range 4).foldl (slotBody mem body worldT static0 num_meshes mfuel cfuel lho i) st =
      ((List.range 4).flatMap (fun j =>
        let slot := readU32 mem (body + lho + 20 * i + 4 + 4 * j)
        if slot = 0 then []
        else if j % 2 = 0 then
          (List.range num_meshes).map
            (fun k => (readU32 mem (body + slot + 4 * k), worldT.getD k default))
        else [(slot, static0 * worldT.getD 0 default)])).foldl
        (fun s c => stepMesh mem body c.1 c.2 mfuel cfuel s) st := by
  have hone : ∀ (j : Nat) (s : List (ChunkOut M) × List VertexBuffer × List Nat),
      slotBody mem body worldT static0 num_meshes mfuel cfuel lho i s j =
        ((let slot := readU32 mem (body + lho + 20 * i + 4 + 4 * j)
          if slot = 0 then ([] : List (Nat × M))
          else if j % 2 = 0 then
            (List.range num_meshes).map
              (fun k => (readU32 mem (body + slot + 4 * k), worldT.getD k default))
          else [(slot, static0 * worldT.getD 0 default)])).foldl
          (fun s c => stepMesh mem body c.1 c.2 mfuel cfuel s) s := by
    intro j s
    by_cases hz : readU32 mem (body + lho + 20 * i + 4 + 4 * j) = 0
    · simp [slotBody, hz]
    · by_cases hj : j % 2 = 0
      · simp [slotBody, hz, hj, List.foldl_map]
      · simp [slotBody, hz, hj]
  rw [show List.range 4 = [0, 1, 2, 3] from by decide]
  simp only [List.flatMap_cons, List.flatMap_nil, List.append_nil, List.foldl_append,
    List.foldl_cons, List.foldl_nil]
  rw [hone, hone, hone, hone]
  simp

theorem layerFold_eq {M : Type} [Mul M] [Inhabited M] (mem : Mem) (body : Nat)
    (worldT : List M) (static0 : M) (num_meshes mfuel cfuel lho : Nat) :
    ∀ (n : Nat) (st : List (ChunkOut M) × List VertexBuffer × List Nat),
      (List.range n).foldl (layerBody mem body worldT static0 num_meshes mfuel cfuel lho) st =
        ((if 0 < n then [0] else []) ++ (if 2 < n then [2] else [])).foldl
          (layerBody mem body worldT static0 num_meshes mfuel cfuel lho) st := by
  intro n
  induction n with
  | zero => intro st; simp
  | succ n ih =>
    intro st
    rw [List.range_succ, List.foldl_append, ih]
    by_cases h0 : n = 0
    · subst h0; simp
    · by_cases h2 : n = 2
      · subst h2
        norm_num
      · have hskip : ∀ x, layerBody mem body worldT static0 num_meshes mfuel cfuel lho x n = x := by
          intro x
          simp [layerBody, h0, h2]
        simp only [List.foldl_cons, List.foldl_nil]
        rw [hskip]
        by_cases h3 : 2 < n
        · rw [if_pos (show 0 < n by omega), if_pos h3, if_pos (show 0 < n + 1 by omega),
            if_pos (show 2 < n + 1 by omega)]
        · rw [if_pos (show 0 < n by omega), if_neg h3, if_neg (show ¬2 < n + 1 by omega),
            if_pos (show 0 < n + 1 by omega)]

/-- C7: the layer walk visits only layer indices 0 and 2 (each only when below
`num_layers`), and for each visited layer the four slots contribute, in
order: nothing when the slot offset is 0; for an even slot, one walker call
per mesh index k on the k-th entry of the slot's offset array with mesh k's
world transform; for an odd slot, exactly one walker call on the slot offset
itself with the static table's first transform composed with mesh 0's world
transform. -/
theorem claim_C7 {M : Type} [Mul M] [Inhabited M] (mem : Mem) (body lho : Nat)
    (num_layers num_meshes : Nat) (worldT : List M) (static0 : M) (mfuel cfuel : Nat)
    (st : List (ChunkOut M) × List VertexBuffer × List Nat) :
    runLayers mem body lho num_layers num_meshes worldT static0 mfuel cfuel st =
      (((if 0 < num_layers then [0] else []) ++ (if 2 < num_layers then [2] else [])).flatMap
        (fun i => (List.range 4).flatMap (fun j =>
          let slot := readU32 mem (body + lho + 20 * i + 4 + 4 * j)
          if slot = 0 then []
          else if j % 2 = 0 then
            (List.range num_meshes).map
              (fun k => (readU32 mem (body + slot + 4 * k), worldT.getD k default))
          else [(slot, static0 * worldT.getD 0 default)]))).foldl
        (fun (s : List (ChunkOut M) × List VertexBuffer × List Nat) (c : Nat × M) =>
          stepMesh mem body c.1 c.2 mfuel cfuel s) st := by
  rw [runLayers, layerFold_eq]
  have hlayer : ∀ (i : Nat) (s : List (ChunkOut M) × List VertexBuffer × List Nat),
      i = 0 ∨ i = 2 →
      layerBody mem body worldT static0 num_meshes mfuel cfuel lho s i =
        ((List.range 4).flatMap (fun j =>
          let slot := readU32 mem (body + lho + 20 * i + 4 + 4 * j)
          if slot = 0 then []
          else if j % 2 = 0 then
            (List.range num_meshes).map
              (fun k => (readU32 mem (body + slot + 4 * k), worldT.getD k default))
          else [(slot, static0 * worldT.getD 0 default)])).foldl
          (fun s c => stepMesh mem body c.1 c.2 mfuel cfuel s) s := by
    intro i s hi
    have hguard : ¬(i ≠ 0 ∧ i ≠ 2) := by rcases hi with h | h <;> simp [h]
    rw [layerBody, if_neg hguard, slotFold_eq]
  by_cases h0 : 0 < num_layers <;> by_cases h2 : 2 < num_layers
  · rw [if_pos h0, if_pos h2]
    simp only [List.cons_append, List.nil_append, List.flatMap_cons, List.flatMap_nil,
      List.append_nil, List.foldl_append, List.foldl_cons, List.foldl_nil]
    rw [hlayer 0 st (Or.inl rfl), hlayer 2 _ (Or.inr rfl)]
  · rw [if_pos h0, if_neg h2]
    simp only [List.cons_append, List.nil_append, List.flatMap_cons, List.flatMap_nil,
      List.append_nil, List.foldl_append, List.foldl_cons, List.foldl_nil]
    rw [hlayer 0 st (Or.inl rfl)]
  · omega
  · rw [if_neg h0, if_neg h2]
    simp

/-! ### Claims C4, C6, C8 — behaviour of the code at the failing inputs -/

/-- A one-mesh, one-chunk file body (header at 100, mesh at 128, chunk at 200,
two elements 7 and 9 at offset 300) whose mesh has the given `vertex_type`. -/
def memC4 (vt : Nat) : Mem := fun a =>
  if a = 112 then 128 else if a = 136 then 3 else if a = 140 then vt
  else if a = 156 then 1 else if a = 176 then 200
  else if a = 204 then 5 else if a = 208 then 2
  else if a = 212 then 44 else if a = 213 then 1
  else if a = 300 then 7 else if a = 302 then 9 else 0

/-- C4 (behaviour of the code at the failing input): the stride lookup maps 89
to 36, 93 to 56 and anything else to 0, and on an unknown vertex type (7) the
decode runs to completion — the chunk is still emitted and the buffer stride
is 0 — with the diagnostic only printed to the stderr trace.  Nothing is
recorded for the caller: the caller-visible outputs (chunks and vertex
buffers) of two files that differ only in their unknown vertex type (7
vs. 11) are identical, while the stderr traces differ. -/
theorem claim_C4 :
    strideOf 89 = 36 ∧ strideOf 93 = 56 ∧ strideOf 7 = 0 ∧ strideOf 11 = 0 ∧
    (processMeshBulk (M := Nat) (memC4 7) 0 100 0 [default] 2 2).2.1 =
      [{ size := 0, stride := 0, data := [] }] ∧
    (processMeshBulk (M := Nat) (memC4 7) 0 100 0 [default] 2 2).1.length = 1 ∧
    (processMeshBulk (M := Nat) (memC4 7) 0 100 0 [default] 2 2).2.2 = [7] ∧
    (processMeshBulk (M := Nat) (memC4 7) 0 100 0 [default] 2 2).1 =
      (processMeshBulk (M := Nat) (memC4 11) 0 100 0 [default] 2 2).1 ∧
    (processMeshBulk (M := Nat) (memC4 7) 0 100 0 [default] 2 2).2.1 =
      (processMeshBulk (M := Nat) (memC4 11) 0 100 0 [default] 2 2).2.1 ∧
    (processMeshBulk (M := Nat) (memC4 7) 0 100 0 [default] 2 2).2.2 ≠
      (processMeshBulk (M := Nat) (memC4 11) 0 100 0 [default] 2 2).2.2 := by
  decide

/-- A file whose header declares `file_length = 8` (field at absolute byte 44)
while its mesh graph (body base 48: header at body offset 100, mesh at 128,
chunk at 200) stores its two 16-bit elements at body offset 300, i.e. at
absolute bytes 348..351 — far past the declared length. -/
def memC6 : Mem := fun a =>
  if a = 44 then 8
  else if a = 160 then 128
  else if a = 184 then 3 else if a = 188 then 89
  else if a = 204 then 1 else if a = 224 then 200
  else if a = 252 then 5 else if a = 256 then 2
  else if a = 260 then 44 else if a = 261 then 1
  else if a = 348 then 7 else if a = 350 then 9
  else 0

/-- C6 (behaviour of the code at the failing input): the declared file length
of `memC6` is 8, the element copy touches absolute bytes 348..351, yet the
bulk walker performs no bounds comparison whatsoever — it completes normally,
emits the chunk, and returns the out-of-range bytes as element values, with
no error or diagnostic of any kind. -/
theorem claim_C6 :
    readU32 memC6 44 = 8 ∧
    readU32 memC6 44 < 48 + 300 + 2 * 2 ∧
    (processMeshBulk (M := Nat) memC6 48 100 0 [default] 2 2).1.length = 1 ∧
    ((processMeshBulk (M := Nat) memC6 48 100 0 [default] 2 2).1.headD default).element_buffer =
      [7, 9] ∧
    (processMeshBulk (M := Nat) memC6 48 100 0 [default] 2 2).2.2 = [] := by
  decide

/-- C8 (behaviour of the code at the failing input): when the initial `fseek`
fails, the constructor returns early and the caller receives the
default-initialized empty model — a `Model` value, not an error; the return
type has no error channel, so this holds whatever bytes the file contains. -/
theorem claim_C8 :
    hgpConstruct (M := Nat) (fun _ _ => 0) true (fun _ => 0) 1 1 =
      { textures := [], materials := [], vertexBuffers := [], chunks := [] } ∧
    hgpConstruct (M := Nat) (fun _ _ => 0) true memC6 1 1 =
      { textures := [], materials := [], vertexBuffers := [], chunks := [] } :=
  ⟨rfl, rfl⟩

end Mortar
